import Mathlib

/-!
# Metrics ingestion session of the collector (`internal/commander/server.go`)

A shallow embedding of `Server.StreamMetrics` and `Server.handleMetrics`.

* The gRPC stream is the environment.  One pass through the `for` loop of
  `StreamMetrics` consumes one `LoopInput`: what `ctx.Done()`/`ctx.Err()` show at
  the head of the loop, what `stream.Recv()` returns, and what `stream.Send`
  returns should the pass reach it.
* The store (`*DB`, whose file is not among the sources) is a parameter: a
  state type `σ` with the two operations `UpsertHost` and `InsertUsage` the
  server calls, each returning the new store state next to its Go results.
* Every pass yields the list of effects it performed (`Event`), in program
  order, so that statements about calls, acknowledgments and registry
  mutations can be made on the trace.  `log.Printf` calls are not effects.
-/

namespace Commander

/-! ## Go values -/

/-- Go `error` values: `io.EOF`, or an error carrying a text. -/
inductive GoError where
  | eof
  | text (s : String)
  deriving DecidableEq, Repr

/-- The method `Error()` of a Go `error`. -/
def GoError.Error : GoError → String
  | .eof => "EOF"
  | .text s => s

/-- The call `fmt.Errorf(pre + ": %w", err)`: a fresh error whose text is `pre`,
a colon, a blank and the text of the wrapped error. -/
def fmtErrorfWrap (pre : String) (err : GoError) : GoError :=
  .text (pre ++ ": " ++ err.Error)

/-- A `time.Time`, by its seconds and nanoseconds since the Unix epoch. -/
structure Time where
  sec : Int
  nsec : Int
  deriving DecidableEq, Repr

/-- The value an `int64` holds after an operation whose exact result is `x`:
`x` reduced into `[-2^63, 2^63)` modulo `2^64`. -/
def wrapInt64 (x : Int) : Int :=
  (x + 9223372036854775808) % 18446744073709551616 - 9223372036854775808

/-- The call `time.Unix(sec, nsec)` on `int64` arguments, with the carry Go
applies when `nsec` is outside `[0, 1e9)`; the additions on `sec` wrap as
`int64` additions do. -/
def time.Unix (sec nsec : Int) : Time :=
  if nsec < 0 ∨ nsec ≥ 1000000000 then
    let n := Int.tdiv nsec 1000000000
    let sec1 := wrapInt64 (sec + n)
    let nsec1 := nsec - n * 1000000000
    if nsec1 < 0 then ⟨wrapInt64 (sec1 - 1), nsec1 + 1000000000⟩ else ⟨sec1, nsec1⟩
  else ⟨sec, nsec⟩

/-- A `float64`, by its IEEE-754 bit pattern; the server only copies it. -/
abbrev Float64 := Nat

/-! ## Wire messages (`proto`) -/

/-- The message `pb.HostInfo`. -/
structure HostInfo where
  UptimeSeconds : Nat
  CpuCores : Nat
  TotalMemoryBytes : Nat
  TotalStorageBytes : Nat
  deriving DecidableEq, Repr

/-- The message `pb.HostUsage`. -/
structure PbHostUsage where
  CpuPercent : Float64
  UsedMemoryBytes : Nat
  UsedStorageBytes : Nat
  deriving DecidableEq, Repr

/-- The message `pb.HostMetrics`; `Info` and `Usage` are pointers and may be nil. -/
structure HostMetrics where
  Hostname : String
  Ip : String
  Timestamp : Int
  Info : Option HostInfo
  Usage : Option PbHostUsage
  deriving DecidableEq, Repr

/-- The `Payload` oneof of `pb.AgentMessage`: the `Metrics` variant, or anything
else (no variant set, or a variant this server does not know). -/
inductive AgentPayload where
  | metrics (m : HostMetrics)
  | other
  deriving DecidableEq, Repr

/-- The message `pb.AgentMessage`. -/
structure AgentMessage where
  Payload : AgentPayload
  deriving DecidableEq, Repr

/-- The message `pb.Acknowledgment`, the only payload of `pb.CollectorMessage`. -/
structure Acknowledgment where
  Success : Bool
  Message : String
  deriving DecidableEq, Repr

/-! ## Persisted records (`models`) -/

/-- The fields of `models.Host` that `handleMetrics` sets. -/
structure Host where
  Hostname : String
  IP : String
  UptimeSeconds : Nat
  CPUCores : Nat
  TotalMemoryBytes : Nat
  TotalStorageBytes : Nat
  LastSeen : Time
  Online : Bool
  deriving DecidableEq, Repr

/-- The fields of `models.HostUsage` that `handleMetrics` sets. -/
structure HostUsage where
  HostID : Int
  Timestamp : Time
  CPUPercent : Float64
  UsedMemoryBytes : Nat
  UsedStorageBytes : Nat
  deriving DecidableEq, Repr

/-- The two store operations the server calls, over a store state `σ`.
`UpsertHost` returns Go's `(hostID, err)`, `InsertUsage` returns `err`. -/
structure DB (σ : Type) where
  UpsertHost : σ → Host → σ × Int × Option GoError
  InsertUsage : σ → HostUsage → σ × Option GoError

/-! ## Effects -/

/-- What `stream.Recv()` returns: a message, or an error (`io.EOF` included). -/
inductive RecvResult where
  | msg (m : AgentMessage)
  | err (e : GoError)
  deriving DecidableEq, Repr

/-- The effects of a session, as they appear in its trace. -/
inductive Event where
  | recv (r : RecvResult)
  | register (hostname : String)
  | unregister (hostname : String)
  | upsertHost (host : Host) (hostID : Int) (err : Option GoError)
  | insertUsage (usage : HostUsage) (err : Option GoError)
  | send (ack : Acknowledgment) (err : Option GoError)
  deriving DecidableEq, Repr

/-! ## The `streams` map -/

/-- Identity of a stream handle (`pb.MetricsCollector_StreamMetricsServer`). -/
abbrev StreamId := Nat

/-- A Go `map[string]StreamId`, as an association list with distinct keys. -/
abbrev StreamMap := List (String × StreamId)

/-- The lookup `m[k]` (with its `ok` flag). -/
def StreamMap.get (m : StreamMap) (k : String) : Option StreamId :=
  match m with
  | [] => none
  | (k1, v) :: rest => if k1 = k then some v else StreamMap.get rest k

/-- The builtin `delete(m, k)`. -/
def StreamMap.delete (m : StreamMap) (k : String) : StreamMap :=
  match m with
  | [] => []
  | (k1, v) :: rest =>
    if k1 = k then StreamMap.delete rest k else (k1, v) :: StreamMap.delete rest k

/-- The assignment `m[k] = v`: insert, or overwrite the entry of `k`. -/
def StreamMap.set (m : StreamMap) (k : String) (v : StreamId) : StreamMap :=
  (k, v) :: StreamMap.delete m k

/-! ## The server -/

/-- The struct `Server`: the store and the `streams` map (`mu` guards `streams`;
every access below is one critical section). -/
structure Server (σ : Type) where
  db : σ
  streams : StreamMap

/-- The constructor `NewServer`. -/
def NewServer {σ : Type} (db : σ) : Server σ :=
  { db := db, streams := [] }

/-- Result of `handleMetrics`: the store afterwards, the returned `error`, and
the store calls made, in order. -/
structure HandleResult (σ : Type) where
  db : σ
  err : Option GoError
  calls : List Event

/-- The `models.Host` literal built by `handleMetrics`. -/
def hostOf (metrics : HostMetrics) (info : HostInfo) : Host :=
  { Hostname := metrics.Hostname
    IP := metrics.Ip
    UptimeSeconds := info.UptimeSeconds
    CPUCores := info.CpuCores
    TotalMemoryBytes := info.TotalMemoryBytes
    TotalStorageBytes := info.TotalStorageBytes
    LastSeen := time.Unix metrics.Timestamp 0
    Online := true }

/-- The `models.HostUsage` literal built by `handleMetrics`. -/
def usageOf (metrics : HostMetrics) (usage : PbHostUsage) (hostID : Int) : HostUsage :=
  { HostID := hostID
    Timestamp := time.Unix metrics.Timestamp 0
    CPUPercent := usage.CpuPercent
    UsedMemoryBytes := usage.UsedMemoryBytes
    UsedStorageBytes := usage.UsedStorageBytes }

/-- The method `Server.handleMetrics`. -/
def handleMetrics {σ : Type} (D : DB σ) (db : σ) (metrics : HostMetrics) : HandleResult σ :=
  match metrics.Info, metrics.Usage with
  | some info, some usage =>
    let host := hostOf metrics info
    let r := D.UpsertHost db host
    match r.2.2 with
    | some err =>
      { db := r.1, err := some (fmtErrorfWrap "upsert host" err),
        calls := [.upsertHost host r.2.1 (some err)] }
    | none =>
      let u := usageOf metrics usage r.2.1
      let r2 := D.InsertUsage r.1 u
      match r2.2 with
      | some err =>
        { db := r2.1, err := some (fmtErrorfWrap "insert usage" err),
          calls := [.upsertHost host r.2.1 none, .insertUsage u (some err)] }
      | none =>
        { db := r2.1, err := none,
          calls := [.upsertHost host r.2.1 none, .insertUsage u none] }
  | _, _ =>
    { db := db, err := some (.text "missing info or usage data"), calls := [] }

/-- The acknowledgment `StreamMetrics` sends for the result `err` of
`handleMetrics`: failure with the text of the error, or success with
"received". -/
def ackFor : Option GoError → Acknowledgment
  | some err => { Success := false, Message := err.Error }
  | none => { Success := true, Message := "received" }

/-- Whether a session is inside the loop of `StreamMetrics` or has returned
(with the `error` it returned). -/
inductive Status where
  | running
  | returned (err : Option GoError)
  deriving DecidableEq, Repr

/-- The locals of one call of `StreamMetrics`: its stream handle, the variable
`hostname`, and where the call stands. -/
structure Session where
  stream : StreamId
  hostname : String
  status : Status
  deriving DecidableEq, Repr

/-- What the environment shows one pass of the loop: `ctxErr` is `some e` when
`ctx.Done()` is closed at the head of the loop (`e` is `ctx.Err()`), `recv` is
what `stream.Recv()` returns, `sendErr` what `stream.Send` returns. -/
structure LoopInput where
  ctxErr : Option GoError
  recv : RecvResult
  sendErr : Option GoError
  deriving DecidableEq, Repr

/-- Result of one pass: server, session locals, and the effects of the pass. -/
structure LoopResult (σ : Type) where
  srv : Server σ
  sess : Session
  events : List Event

/-- A `return err` of `StreamMetrics`: the deferred function runs, deleting
`streams[hostname]` when `hostname` is not empty. `pre` are the effects of the
pass before the return. -/
def returnWith {σ : Type} (srv : Server σ) (sess : Session) (pre : List Event)
    (err : Option GoError) : LoopResult σ :=
  if sess.hostname ≠ "" then
    { srv := { srv with streams := srv.streams.delete sess.hostname }
      sess := { sess with status := .returned err }
      events := pre ++ [.unregister sess.hostname] }
  else
    { srv := srv, sess := { sess with status := .returned err }, events := pre }

/-- One pass through the `for` loop of `StreamMetrics`, for a running session. -/
def loopBody {σ : Type} (D : DB σ) (srv : Server σ) (sess : Session) (i : LoopInput) :
    LoopResult σ :=
  match i.ctxErr with
  | some e => returnWith srv sess [] (some e)
  | none =>
    match i.recv with
    | .err e =>
      if e = .eof then returnWith srv sess [.recv (.err e)] none
      else returnWith srv sess [.recv (.err e)] (some e)
    | .msg m =>
      match m.Payload with
      | .other => { srv := srv, sess := sess, events := [.recv (.msg m)] }
      | .metrics metrics =>
        let bind := decide (sess.hostname = "")
        let sess1 : Session := if bind then { sess with hostname := metrics.Hostname } else sess
        let streams1 := if bind then srv.streams.set metrics.Hostname sess.stream else srv.streams
        let evReg : List Event := if bind then [.register metrics.Hostname] else []
        let h := handleMetrics D srv.db metrics
        let srv1 : Server σ := { db := h.db, streams := streams1 }
        let pre := [.recv (.msg m)] ++ evReg ++ h.calls ++ [.send (ackFor h.err) i.sendErr]
        match i.sendErr with
        | some e => returnWith srv1 sess1 pre (some e)
        | none => { srv := srv1, sess := sess1, events := pre }

/-- Result of a session over a finite run of the environment: final server and
session locals, and the trace, one list of effects per pass of the loop. -/
structure RunResult (σ : Type) where
  srv : Server σ
  sess : Session
  trace : List (List Event)

/-- The loop of `StreamMetrics` over the inputs of successive passes; it stops
at the pass that returns. A session still `running` at the end is waiting. -/
def runLoop {σ : Type} (D : DB σ) (srv : Server σ) (sess : Session) :
    List LoopInput → RunResult σ
  | [] => { srv := srv, sess := sess, trace := [] }
  | i :: rest =>
    match sess.status with
    | .returned _ => { srv := srv, sess := sess, trace := [] }
    | .running =>
      let r := loopBody D srv sess i
      let r2 := runLoop D r.srv r.sess rest
      { srv := r2.srv, sess := r2.sess, trace := r.events :: r2.trace }

/-- The method `Server.StreamMetrics`, called with stream handle `stream`:
`hostname` starts empty, then the loop runs. -/
def StreamMetrics {σ : Type} (D : DB σ) (srv : Server σ) (stream : StreamId)
    (inputs : List LoopInput) : RunResult σ :=
  runLoop D srv { stream := stream, hostname := "", status := .running } inputs

/-! ## Reading a trace -/

/-- The acknowledgment of a `Send` effect. -/
def Event.ack? : Event → Option Acknowledgment
  | .send ack _ => some ack
  | _ => none

/-- Whether an effect is a store call (`UpsertHost` or `InsertUsage`). -/
def Event.isStoreCall : Event → Bool
  | .upsertHost _ _ _ => true
  | .insertUsage _ _ => true
  | _ => false

/-- The key of an insertion into `streams`. -/
def Event.registered? : Event → Option String
  | .register h => some h
  | _ => none

/-- The key of a deletion from `streams`. -/
def Event.unregistered? : Event → Option String
  | .unregister h => some h
  | _ => none

/-- The result of a `Recv` effect. -/
def Event.recv? : Event → Option RecvResult
  | .recv r => some r
  | _ => none

/-- The `Metrics` payload of a `Recv` effect that returned one. -/
def Event.metrics? : Event → Option HostMetrics
  | .recv (.msg ⟨.metrics m⟩) => some m
  | _ => none

/-- The acknowledgments sent in a list of effects, in order. -/
def acksOf (evs : List Event) : List Acknowledgment := evs.filterMap Event.ack?

/-- The store calls in a list of effects, in order. -/
def storeCallsOf (evs : List Event) : List Event := evs.filter Event.isStoreCall

/-- The keys inserted into `streams` in a list of effects, in order. -/
def registrationsOf (evs : List Event) : List String := evs.filterMap Event.registered?

/-- The keys deleted from `streams` in a list of effects, in order. -/
def unregistrationsOf (evs : List Event) : List String := evs.filterMap Event.unregistered?

/-- The results of the `Recv` calls in a list of effects, in order. -/
def recvsOf (evs : List Event) : List RecvResult := evs.filterMap Event.recv?

/-- The `Metrics` payloads received in a list of effects, in order. -/
def metricsOf (evs : List Event) : List HostMetrics := evs.filterMap Event.metrics?

/-- A structurally valid `Metrics` payload: `Info` and `Usage` both present. -/
def HostMetrics.valid (m : HostMetrics) : Bool := m.Info.isSome && m.Usage.isSome

/-- Both store operations succeeded in a list of effects: it holds an
`UpsertHost` call that returned no error and an `InsertUsage` call that
returned no error. -/
def StoredOk (evs : List Event) : Prop :=
  (∃ host hostID, Event.upsertHost host hostID none ∈ evs) ∧
  (∃ usage, Event.insertUsage usage none ∈ evs)

/-- The acknowledgment owed to message `m` by the pass with effects `evs`:
the pass received `m`; for a `Metrics` payload it sent exactly one
acknowledgment, whose `Success` is true exactly when both store operations
succeeded in the pass; for any other payload it sent none. -/
def AckCorresponds (m : AgentMessage) (evs : List Event) : Prop :=
  recvsOf evs = [.msg m] ∧
  match m.Payload with
  | .metrics _ => ∃ ack, acksOf evs = [ack] ∧ (ack.Success = true ↔ StoredOk evs)
  | .other => acksOf evs = []

/-! ## Stores to run the model on -/

/-- A store that answers from a script: the results of the successive
`UpsertHost` calls and of the successive `InsertUsage` calls. When a script is
used up the call succeeds (with identifier 0). It keeps no records. -/
structure ScriptedStore where
  upserts : List (Int × Option GoError)
  inserts : List (Option GoError)
  deriving DecidableEq, Repr

/-- The operations of `ScriptedStore`. -/
def scriptedDB : DB ScriptedStore where
  UpsertHost := fun st _ =>
    match st.upserts with
    | [] => (st, 0, none)
    | r :: rest => ({ st with upserts := rest }, r.1, r.2)
  InsertUsage := fun st _ =>
    match st.inserts with
    | [] => (st, none)
    | r :: rest => ({ st with inserts := rest }, r)

/-- Modelled from the spec: the store behind `UpsertHost` and `InsertUsage`
(the file of `DB` is not among the sources). Host records are keyed by
hostname and updated by upsert (a later write with the same hostname overwrites
the fields); usage records are appended, one row per sample. The identifier of
a host is its position, from 1. Neither operation fails. -/
structure MemStore where
  hosts : List Host
  usage : List HostUsage
  deriving DecidableEq, Repr

/-- Upsert into the host table of `MemStore`: the table afterwards and the
identifier of the record, counting from `n`. -/
def MemStore.upsert (host : Host) : List Host → Int → List Host × Int
  | [], n => ([host], n)
  | h :: rest, n =>
    if h.Hostname = host.Hostname then (host :: rest, n)
    else ((MemStore.upsert host rest (n + 1)).1.cons h, (MemStore.upsert host rest (n + 1)).2)

/-- The operations of `MemStore`. -/
def memDB : DB MemStore where
  UpsertHost := fun st host =>
    ({ st with hosts := (MemStore.upsert host st.hosts 1).1 },
      (MemStore.upsert host st.hosts 1).2, none)
  InsertUsage := fun st u => ({ st with usage := st.usage ++ [u] }, none)

/-- The input of a pass that receives message `m` with the context live and the
acknowledgment (if any) sent without error. -/
def recvMsg (m : AgentMessage) : LoopInput :=
  { ctxErr := none, recv := .msg m, sendErr := none }

/-- The input of a pass whose `Recv` returns `io.EOF`, the context live. -/
def recvEOF : LoopInput :=
  { ctxErr := none, recv := .err .eof, sendErr := none }

/-- A structurally valid sample: both `Info` and `Usage` present. -/
def sample (hostname : String) (ts : Int) : HostMetrics :=
  { Hostname := hostname, Ip := "10.0.0.1", Timestamp := ts,
    Info := some { UptimeSeconds := 3600, CpuCores := 4, TotalMemoryBytes := 8192,
                   TotalStorageBytes := 65536 },
    Usage := some { CpuPercent := 0x4045400000000000, UsedMemoryBytes := 2048,
                    UsedStorageBytes := 4096 } }

/-- A sample from `hostname` whose `Info` is nil. -/
def sampleNoInfo (hostname : String) (ts : Int) : HostMetrics :=
  { sample hostname ts with Info := none }

/-- The input of a pass that finds the context cancelled at the head of the
loop (`ctx.Err()` is `context.Canceled`) while a sample from `h1` is waiting to
be received. -/
def cancelledInput : LoopInput :=
  { ctxErr := some (.text "context canceled"),
    recv := .msg ⟨.metrics (sample "h1" 1060)⟩, sendErr := none }

/-- The empty `MemStore`. -/
def emptyStore : MemStore := { hosts := [], usage := [] }

/-! ## `handleMetrics` -/

/-- The guard of `handleMetrics` rejects a message without `Info` or `Usage`
before any store call. -/
theorem handleMetrics_missing {σ : Type} (D : DB σ) (db : σ) (metrics : HostMetrics)
    (h : metrics.Info = none ∨ metrics.Usage = none) :
    handleMetrics D db metrics =
      { db := db, err := some (.text "missing info or usage data"), calls := [] } := by
  unfold handleMetrics
  rcases h with h | h
  · simp [h]
  · cases hi : metrics.Info <;> simp [h]

/-- The path of `handleMetrics` on which `UpsertHost` returns an error. -/
theorem handleMetrics_upsert_failed {σ : Type} (D : DB σ) (db : σ) (metrics : HostMetrics)
    (info : HostInfo) (usage : PbHostUsage) (e : GoError)
    (hi : metrics.Info = some info) (hu : metrics.Usage = some usage)
    (he : (D.UpsertHost db (hostOf metrics info)).2.2 = some e) :
    handleMetrics D db metrics =
      { db := (D.UpsertHost db (hostOf metrics info)).1
        err := some (fmtErrorfWrap "upsert host" e)
        calls := [.upsertHost (hostOf metrics info)
                    (D.UpsertHost db (hostOf metrics info)).2.1 (some e)] } := by
  unfold handleMetrics
  simp [hi, hu, he]

/-- The paths of `handleMetrics` on which `UpsertHost` returns no error. -/
theorem handleMetrics_upsert_ok {σ : Type} (D : DB σ) (db : σ) (metrics : HostMetrics)
    (info : HostInfo) (usage : PbHostUsage)
    (hi : metrics.Info = some info) (hu : metrics.Usage = some usage)
    (he : (D.UpsertHost db (hostOf metrics info)).2.2 = none) :
    handleMetrics D db metrics =
      { db := (D.InsertUsage (D.UpsertHost db (hostOf metrics info)).1
                (usageOf metrics usage (D.UpsertHost db (hostOf metrics info)).2.1)).1
        err := (D.InsertUsage (D.UpsertHost db (hostOf metrics info)).1
                (usageOf metrics usage (D.UpsertHost db (hostOf metrics info)).2.1)).2.map
                  (fmtErrorfWrap "insert usage")
        calls := [.upsertHost (hostOf metrics info)
                    (D.UpsertHost db (hostOf metrics info)).2.1 none,
                  .insertUsage
                    (usageOf metrics usage (D.UpsertHost db (hostOf metrics info)).2.1)
                    (D.InsertUsage (D.UpsertHost db (hostOf metrics info)).1
                      (usageOf metrics usage
                        (D.UpsertHost db (hostOf metrics info)).2.1)).2] } := by
  unfold handleMetrics
  simp only [hi, hu, he]
  cases h2 : (D.InsertUsage (D.UpsertHost db (hostOf metrics info)).1
      (usageOf metrics usage (D.UpsertHost db (hostOf metrics info)).2.1)).2 <;> simp [h2]

/-- C5. Ordering in `handleMetrics`: for every message the store calls are
none at all, or one `UpsertHost` that failed (and then no `InsertUsage`), or
one `UpsertHost` that returned no error followed by one `InsertUsage` which is
issued on the store state left by that `UpsertHost` and carries the identifier
it returned. -/
theorem handleMetrics_upsert_before_insert {σ : Type} (D : DB σ) (db : σ)
    (metrics : HostMetrics) :
    ((handleMetrics D db metrics).calls = [] ∧ (handleMetrics D db metrics).db = db) ∨
    (∃ host e, (D.UpsertHost db host).2.2 = some e ∧
      (handleMetrics D db metrics).calls =
        [.upsertHost host (D.UpsertHost db host).2.1 (some e)] ∧
      (handleMetrics D db metrics).db = (D.UpsertHost db host).1) ∨
    (∃ host usage, (D.UpsertHost db host).2.2 = none ∧
      usage.HostID = (D.UpsertHost db host).2.1 ∧
      (handleMetrics D db metrics).calls =
        [.upsertHost host (D.UpsertHost db host).2.1 none,
         .insertUsage usage (D.InsertUsage (D.UpsertHost db host).1 usage).2] ∧
      (handleMetrics D db metrics).db = (D.InsertUsage (D.UpsertHost db host).1 usage).1) := by
  cases hi : metrics.Info with
  | none => exact Or.inl (by rw [handleMetrics_missing D db metrics (Or.inl hi)]; exact ⟨rfl, rfl⟩)
  | some info =>
    cases hu : metrics.Usage with
    | none =>
      exact Or.inl (by rw [handleMetrics_missing D db metrics (Or.inr hu)]; exact ⟨rfl, rfl⟩)
    | some usage =>
      cases he : (D.UpsertHost db (hostOf metrics info)).2.2 with
      | some e =>
        refine Or.inr (Or.inl ⟨hostOf metrics info, e, he, ?_⟩)
        rw [handleMetrics_upsert_failed D db metrics info usage e hi hu he]
        exact ⟨rfl, rfl⟩
      | none =>
        refine Or.inr (Or.inr ⟨hostOf metrics info,
          usageOf metrics usage (D.UpsertHost db (hostOf metrics info)).2.1, he, rfl, ?_⟩)
        rw [handleMetrics_upsert_ok D db metrics info usage hi hu he]
        exact ⟨rfl, rfl⟩

/-- The instant `time.Unix(ts, 0)` has seconds `ts` and nanoseconds 0. -/
theorem time_Unix_zero (ts : Int) : time.Unix ts 0 = ⟨ts, 0⟩ := by
  simp [time.Unix]

/-- C8. Translation in `handleMetrics`: for a message with `Info` and `Usage`
present, the first store call is `UpsertHost` with a `Host` whose hostname, IP,
uptime, core count, total memory and total storage are the message's, whose
`LastSeen` is the message timestamp in Unix seconds and whose `Online` is
true; when that call returns no error the only other call is `InsertUsage`
with a `HostUsage` whose `HostID` is the identifier `UpsertHost` returned, whose
`Timestamp` is the message timestamp and whose CPU percent, used memory and
used storage are the message's; when it returns an error there is no other
call. -/
theorem handleMetrics_translation {σ : Type} (D : DB σ) (db : σ) (metrics : HostMetrics)
    (info : HostInfo) (usage : PbHostUsage)
    (hi : metrics.Info = some info) (hu : metrics.Usage = some usage) :
    let host : Host :=
      { Hostname := metrics.Hostname, IP := metrics.Ip,
        UptimeSeconds := info.UptimeSeconds, CPUCores := info.CpuCores,
        TotalMemoryBytes := info.TotalMemoryBytes,
        TotalStorageBytes := info.TotalStorageBytes,
        LastSeen := { sec := metrics.Timestamp, nsec := 0 }, Online := true }
    let up := D.UpsertHost db host
    let u : HostUsage :=
      { HostID := up.2.1, Timestamp := { sec := metrics.Timestamp, nsec := 0 },
        CPUPercent := usage.CpuPercent, UsedMemoryBytes := usage.UsedMemoryBytes,
        UsedStorageBytes := usage.UsedStorageBytes }
    (handleMetrics D db metrics).calls =
      if up.2.2 = none then
        [.upsertHost host up.2.1 none, .insertUsage u (D.InsertUsage up.1 u).2]
      else [.upsertHost host up.2.1 up.2.2] := by
  intro host up u
  have hhost : hostOf metrics info = host := by
    simp [hostOf, host, time_Unix_zero]
  have hu2 : usageOf metrics usage up.2.1 = u := by
    simp [usageOf, u, time_Unix_zero]
  cases he : up.2.2 with
  | some e =>
    have he2 : (D.UpsertHost db (hostOf metrics info)).2.2 = some e := by
      rw [hhost]; exact he
    rw [handleMetrics_upsert_failed D db metrics info usage e hi hu he2]
    simp [hhost, up]
  | none =>
    have he2 : (D.UpsertHost db (hostOf metrics info)).2.2 = none := by
      rw [hhost]; exact he
    rw [handleMetrics_upsert_ok D db metrics info usage hi hu he2]
    simp only [hhost]
    simp [up, hu2]

/-- C8, on the sample of the spec: timestamp 1000 and CPU percent 42.5 (bit
pattern `0x4045400000000000`) from host `h1` give an upsert with `LastSeen` 1000
and a usage row with that CPU percent, attached to identifier 1. -/
theorem handleMetrics_translation_witness :
    (handleMetrics memDB { hosts := [], usage := [] } (sample "h1" 1000)).calls =
      [.upsertHost
          { Hostname := "h1", IP := "10.0.0.1", UptimeSeconds := 3600, CPUCores := 4,
            TotalMemoryBytes := 8192, TotalStorageBytes := 65536,
            LastSeen := { sec := 1000, nsec := 0 }, Online := true } 1 none,
       .insertUsage
          { HostID := 1, Timestamp := { sec := 1000, nsec := 0 },
            CPUPercent := 0x4045400000000000, UsedMemoryBytes := 2048,
            UsedStorageBytes := 4096 } none] :=
  (handleMetrics_translation memDB { hosts := [], usage := [] } (sample "h1" 1000)
      { UptimeSeconds := 3600, CpuCores := 4, TotalMemoryBytes := 8192,
        TotalStorageBytes := 65536 }
      { CpuPercent := 0x4045400000000000, UsedMemoryBytes := 2048, UsedStorageBytes := 4096 }
      rfl rfl).trans rfl

/-- C2. Validation rejection: for a `Metrics` message whose `Info` or `Usage`
is nil, `handleMetrics` returns the error "missing info or usage data", makes
no store call and leaves the store as it was; the pass of `StreamMetrics` that
receives it makes no store call, leaves the store as it was, and sends exactly
one acknowledgment, with `Success` false. -/
theorem missing_info_or_usage_rejected {σ : Type} (D : DB σ) (srv : Server σ)
    (sess : Session) (i : LoopInput) (metrics : HostMetrics)
    (h : metrics.Info = none ∨ metrics.Usage = none)
    (hctx : i.ctxErr = none) (hrecv : i.recv = .msg ⟨.metrics metrics⟩) :
    (handleMetrics D srv.db metrics).err = some (.text "missing info or usage data") ∧
    (handleMetrics D srv.db metrics).calls = [] ∧
    (handleMetrics D srv.db metrics).db = srv.db ∧
    storeCallsOf (loopBody D srv sess i).events = [] ∧
    (loopBody D srv sess i).srv.db = srv.db ∧
    acksOf (loopBody D srv sess i).events =
      [{ Success := false, Message := "missing info or usage data" }] := by
  have hm := handleMetrics_missing D srv.db metrics h
  refine ⟨by rw [hm], by rw [hm], by rw [hm], ?_, ?_, ?_⟩
  all_goals
    unfold loopBody
    simp only [hctx, hrecv, hm]
    cases hs : i.sendErr <;> by_cases hh : sess.hostname = "" <;>
      by_cases hh2 : metrics.Hostname = "" <;>
      simp [hh, hh2, returnWith, storeCallsOf, acksOf, ackFor, GoError.Error,
        Event.isStoreCall, Event.ack?]

/-- C2, on a message from `h2` without `Info`, first on its session. -/
theorem missing_info_or_usage_rejected_witness :
    acksOf (loopBody memDB (NewServer { hosts := [], usage := [] })
        { stream := 1, hostname := "", status := .running }
        (recvMsg ⟨.metrics { sample "h2" 1000 with Info := none }⟩)).events =
      [{ Success := false, Message := "missing info or usage data" }] :=
  (missing_info_or_usage_rejected memDB (NewServer { hosts := [], usage := [] })
      { stream := 1, hostname := "", status := .running }
      (recvMsg ⟨.metrics { sample "h2" 1000 with Info := none }⟩)
      { sample "h2" 1000 with Info := none } (Or.inl rfl) rfl rfl).2.2.2.2.2

/-! ## The `streams` map: lookups after `delete` and after assignment -/

/-- After `delete(m, k)` the map has no entry for `k`. -/
theorem StreamMap.get_delete_self (m : StreamMap) (k : String) :
    (StreamMap.delete m k).get k = none := by
  induction m with
  | nil => rfl
  | cons kv rest ih =>
    obtain ⟨k1, v⟩ := kv
    by_cases hk : k1 = k
    · simp [StreamMap.delete, hk, ih]
    · simp [StreamMap.delete, hk, StreamMap.get, ih]

/-- The builtin `delete(m, k)` leaves the entries of other keys as they were. -/
theorem StreamMap.get_delete_other (m : StreamMap) (k k2 : String) (h : k2 ≠ k) :
    (StreamMap.delete m k).get k2 = m.get k2 := by
  induction m with
  | nil => rfl
  | cons kv rest ih =>
    obtain ⟨k1, v⟩ := kv
    by_cases hk : k1 = k
    · have hk2 : ¬ k1 = k2 := fun h2 => h (h2.symm.trans hk)
      rw [StreamMap.delete, if_pos hk, ih, StreamMap.get, if_neg hk2]
    · rw [StreamMap.delete, if_neg hk, StreamMap.get, StreamMap.get, ih]

/-- After `m[k] = v` the entry of `k` is `v`. -/
theorem StreamMap.get_set_self (m : StreamMap) (k : String) (v : StreamId) :
    (StreamMap.set m k v).get k = some v := by
  simp [StreamMap.set, StreamMap.get]

/-- The assignment `m[k] = v` leaves the entries of other keys as they were. -/
theorem StreamMap.get_set_other (m : StreamMap) (k k2 : String) (v : StreamId)
    (h : k2 ≠ k) : (StreamMap.set m k v).get k2 = m.get k2 := by
  have hk : ¬ k = k2 := fun h2 => h h2.symm
  simp [StreamMap.set, StreamMap.get, hk, StreamMap.get_delete_other m k k2 h]

/-! ## One pass of the loop, by what the environment shows -/

/-- A pass that sees the context cancelled returns `ctx.Err()` at once. -/
theorem loopBody_cancelled {σ : Type} (D : DB σ) (srv : Server σ) (sess : Session)
    (i : LoopInput) (e : GoError) (hctx : i.ctxErr = some e) :
    loopBody D srv sess i = returnWith srv sess [] (some e) := by
  unfold loopBody
  simp [hctx]

/-- A pass whose `Recv` fails returns nil on `io.EOF` and the error otherwise. -/
theorem loopBody_recv_err {σ : Type} (D : DB σ) (srv : Server σ) (sess : Session)
    (i : LoopInput) (e : GoError) (hctx : i.ctxErr = none) (hrecv : i.recv = .err e) :
    loopBody D srv sess i =
      returnWith srv sess [.recv (.err e)] (if e = .eof then none else some e) := by
  unfold loopBody
  by_cases he : e = .eof <;> simp [hctx, hrecv, he]

/-- A pass that receives a payload other than `Metrics` only logs it. -/
theorem loopBody_other {σ : Type} (D : DB σ) (srv : Server σ) (sess : Session)
    (i : LoopInput) (m : AgentMessage) (hctx : i.ctxErr = none) (hrecv : i.recv = .msg m)
    (hp : m.Payload = .other) :
    loopBody D srv sess i = { srv := srv, sess := sess, events := [.recv (.msg m)] } := by
  unfold loopBody
  simp [hctx, hrecv, hp]

/-- A pass that receives `Metrics` on a session whose `hostname` is still empty:
it adopts the hostname of the message, stores its stream under it, handles the
message and sends the acknowledgment. -/
theorem loopBody_metrics_unbound {σ : Type} (D : DB σ) (srv : Server σ) (sess : Session)
    (i : LoopInput) (m : AgentMessage) (mt : HostMetrics) (hctx : i.ctxErr = none)
    (hrecv : i.recv = .msg m) (hp : m.Payload = .metrics mt) (hh : sess.hostname = "") :
    loopBody D srv sess i =
      match i.sendErr with
      | some e =>
        returnWith
          { db := (handleMetrics D srv.db mt).db,
            streams := srv.streams.set mt.Hostname sess.stream }
          { sess with hostname := mt.Hostname }
          (.recv (.msg m) :: .register mt.Hostname :: ((handleMetrics D srv.db mt).calls ++
            [.send (ackFor (handleMetrics D srv.db mt).err) (some e)])) (some e)
      | none =>
        { srv := { db := (handleMetrics D srv.db mt).db,
                   streams := srv.streams.set mt.Hostname sess.stream }
          sess := { sess with hostname := mt.Hostname }
          events := .recv (.msg m) :: .register mt.Hostname ::
            ((handleMetrics D srv.db mt).calls ++
              [.send (ackFor (handleMetrics D srv.db mt).err) none]) } := by
  unfold loopBody
  cases hs : i.sendErr <;> simp [hctx, hrecv, hp, hh, hs]

/-- A pass that receives `Metrics` on a session whose `hostname` is set: it
handles the message and sends the acknowledgment; `hostname` and `streams` are
not touched. -/
theorem loopBody_metrics_bound {σ : Type} (D : DB σ) (srv : Server σ) (sess : Session)
    (i : LoopInput) (m : AgentMessage) (mt : HostMetrics) (hctx : i.ctxErr = none)
    (hrecv : i.recv = .msg m) (hp : m.Payload = .metrics mt) (hh : sess.hostname ≠ "") :
    loopBody D srv sess i =
      match i.sendErr with
      | some e =>
        returnWith { db := (handleMetrics D srv.db mt).db, streams := srv.streams } sess
          (.recv (.msg m) :: ((handleMetrics D srv.db mt).calls ++
            [.send (ackFor (handleMetrics D srv.db mt).err) (some e)])) (some e)
      | none =>
        { srv := { db := (handleMetrics D srv.db mt).db, streams := srv.streams }
          sess := sess
          events := .recv (.msg m) :: ((handleMetrics D srv.db mt).calls ++
            [.send (ackFor (handleMetrics D srv.db mt).err) none]) } := by
  unfold loopBody
  cases hs : i.sendErr <;> simp [hctx, hrecv, hp, hh, hs]

/-- The store calls of `handleMetrics` come in one of three shapes. -/
theorem handleMetrics_calls_cases {σ : Type} (D : DB σ) (db : σ) (mt : HostMetrics) :
    ((handleMetrics D db mt).calls = [] ∧ ∃ e, (handleMetrics D db mt).err = some e) ∨
    (∃ host hostID e, (handleMetrics D db mt).calls = [.upsertHost host hostID (some e)] ∧
      ∃ e2, (handleMetrics D db mt).err = some e2) ∨
    (∃ host hostID usage r,
      (handleMetrics D db mt).calls = [.upsertHost host hostID none, .insertUsage usage r] ∧
      (handleMetrics D db mt).err = r.map (fmtErrorfWrap "insert usage")) := by
  cases hi : mt.Info with
  | none => exact Or.inl (by rw [handleMetrics_missing D db mt (Or.inl hi)]; exact ⟨rfl, _, rfl⟩)
  | some info =>
    cases hu : mt.Usage with
    | none =>
      exact Or.inl (by rw [handleMetrics_missing D db mt (Or.inr hu)]; exact ⟨rfl, _, rfl⟩)
    | some usage =>
      cases he : (D.UpsertHost db (hostOf mt info)).2.2 with
      | some e =>
        refine Or.inr (Or.inl ?_)
        rw [handleMetrics_upsert_failed D db mt info usage e hi hu he]
        exact ⟨_, _, e, rfl, _, rfl⟩
      | none =>
        refine Or.inr (Or.inr ?_)
        rw [handleMetrics_upsert_ok D db mt info usage hi hu he]
        exact ⟨_, _, _, _, rfl, rfl⟩

/-- The acknowledgment for the result of `handleMetrics` reports success
exactly when both store calls were made and returned no error. -/
theorem ackFor_success_iff {σ : Type} (D : DB σ) (db : σ) (mt : HostMetrics)
    (pre : List Event) (post : List Event)
    (hpre : ∀ ev ∈ pre, ev.isStoreCall = false) (hpost : ∀ ev ∈ post, ev.isStoreCall = false) :
    (ackFor (handleMetrics D db mt).err).Success = true ↔
      StoredOk (pre ++ (handleMetrics D db mt).calls ++ post) := by
  have key : ∀ ev, ev.isStoreCall = true →
      (ev ∈ pre ++ (handleMetrics D db mt).calls ++ post ↔
        ev ∈ (handleMetrics D db mt).calls) := by
    intro ev hev
    simp only [List.mem_append]
    constructor
    · rintro ((h | h) | h)
      · have := hpre ev h; simp_all
      · exact h
      · have := hpost ev h; simp_all
    · intro h; exact Or.inl (Or.inr h)
  unfold StoredOk
  simp only [key _ (show (Event.upsertHost _ _ none).isStoreCall = true from rfl),
    key _ (show (Event.insertUsage _ none).isStoreCall = true from rfl)]
  rcases handleMetrics_calls_cases D db mt with ⟨hc, e, he⟩ | ⟨host, hostID, e, hc, e2, he⟩ |
    ⟨host, hostID, usage, r, hc, he⟩
  · simp [hc, he, ackFor]
  · simp [hc, he, ackFor]
  · cases r with
    | none => simp [hc, he, ackFor]
    | some e => simp [hc, he, ackFor]

/-- The store calls of `handleMetrics` hold no other kind of effect. -/
theorem handleMetrics_calls_store {σ : Type} (D : DB σ) (db : σ) (mt : HostMetrics) :
    ∀ ev ∈ (handleMetrics D db mt).calls, ev.isStoreCall = true := by
  rcases handleMetrics_calls_cases D db mt with ⟨hc, _⟩ | ⟨_, _, _, hc, _⟩ | ⟨_, _, _, _, hc, _⟩ <;>
    simp [hc, Event.isStoreCall]

/-- A store call is no acknowledgment, registry mutation or receive. -/
theorem filterMap_store_calls {α : Type} (f : Event → Option α) (calls : List Event)
    (hf : ∀ ev, ev.isStoreCall = true → f ev = none)
    (hc : ∀ ev ∈ calls, ev.isStoreCall = true) : calls.filterMap f = [] := by
  induction calls with
  | nil => rfl
  | cons ev rest ih =>
    have h1 := hf ev (hc ev (List.mem_cons_self _ _))
    have h2 := ih (fun x hx => hc x (List.mem_cons_of_mem _ hx))
    simp [List.filterMap_cons, h1, h2]

/-- The calls of `handleMetrics` send nothing. -/
theorem acksOf_calls {σ : Type} (D : DB σ) (db : σ) (mt : HostMetrics) :
    acksOf (handleMetrics D db mt).calls = [] :=
  filterMap_store_calls _ _ (by intro ev; cases ev <;> simp [Event.isStoreCall, Event.ack?])
    (handleMetrics_calls_store D db mt)

/-- The calls of `handleMetrics` insert nothing into `streams`. -/
theorem registrationsOf_calls {σ : Type} (D : DB σ) (db : σ) (mt : HostMetrics) :
    registrationsOf (handleMetrics D db mt).calls = [] :=
  filterMap_store_calls _ _
    (by intro ev; cases ev <;> simp [Event.isStoreCall, Event.registered?])
    (handleMetrics_calls_store D db mt)

/-- The calls of `handleMetrics` delete nothing from `streams`. -/
theorem unregistrationsOf_calls {σ : Type} (D : DB σ) (db : σ) (mt : HostMetrics) :
    unregistrationsOf (handleMetrics D db mt).calls = [] :=
  filterMap_store_calls _ _
    (by intro ev; cases ev <;> simp [Event.isStoreCall, Event.unregistered?])
    (handleMetrics_calls_store D db mt)

/-- The calls of `handleMetrics` receive nothing. -/
theorem recvsOf_calls {σ : Type} (D : DB σ) (db : σ) (mt : HostMetrics) :
    recvsOf (handleMetrics D db mt).calls = [] :=
  filterMap_store_calls _ _ (by intro ev; cases ev <;> simp [Event.isStoreCall, Event.recv?])
    (handleMetrics_calls_store D db mt)

/-- The calls of `handleMetrics` receive no `Metrics` payload. -/
theorem metricsOf_calls {σ : Type} (D : DB σ) (db : σ) (mt : HostMetrics) :
    metricsOf (handleMetrics D db mt).calls = [] :=
  filterMap_store_calls _ _
    (by intro ev; cases ev <;> simp [Event.isStoreCall, Event.metrics?])
    (handleMetrics_calls_store D db mt)

/-! ## The loop -/

/-- A session that has returned runs no further pass. -/
theorem runLoop_returned {σ : Type} (D : DB σ) (srv : Server σ) (sess : Session)
    (inputs : List LoopInput) (err : Option GoError) (h : sess.status = .returned err) :
    runLoop D srv sess inputs = { srv := srv, sess := sess, trace := [] } := by
  cases inputs with
  | nil => rfl
  | cons i rest => simp [runLoop, h]

/-- A running session with an input at hand makes one pass, then goes on. -/
theorem runLoop_running {σ : Type} (D : DB σ) (srv : Server σ) (sess : Session)
    (i : LoopInput) (rest : List LoopInput) (h : sess.status = .running) :
    runLoop D srv sess (i :: rest) =
      { srv := (runLoop D (loopBody D srv sess i).srv (loopBody D srv sess i).sess rest).srv
        sess := (runLoop D (loopBody D srv sess i).srv (loopBody D srv sess i).sess rest).sess
        trace := (loopBody D srv sess i).events ::
          (runLoop D (loopBody D srv sess i).srv (loopBody D srv sess i).sess rest).trace } := by
  simp [runLoop, h]

/-- Every `return` of `StreamMetrics` leaves the session returned. -/
theorem returnWith_status {σ : Type} (srv : Server σ) (sess : Session) (pre : List Event)
    (err : Option GoError) : (returnWith srv sess pre err).sess.status = .returned err := by
  unfold returnWith
  split <;> rfl

/-! ## Acknowledgments -/

/-- A pass that receives a message, with the acknowledgment sent without error,
leaves the session running and acknowledges the message as owed. -/
theorem loopBody_recvMsg {σ : Type} (D : DB σ) (srv : Server σ) (sess : Session)
    (m : AgentMessage) :
    (loopBody D srv sess (recvMsg m)).sess.status = sess.status ∧
    AckCorresponds m (loopBody D srv sess (recvMsg m)).events := by
  obtain ⟨p⟩ := m
  cases p with
  | other =>
    rw [loopBody_other D srv sess (recvMsg ⟨.other⟩) ⟨.other⟩ rfl rfl rfl]
    simp [AckCorresponds, recvsOf, acksOf, Event.recv?, Event.ack?]
  | metrics mt =>
    have hc := acksOf_calls D srv.db mt
    have hr := recvsOf_calls D srv.db mt
    unfold acksOf at hc
    unfold recvsOf at hr
    by_cases hh : sess.hostname = ""
    · rw [loopBody_metrics_unbound D srv sess (recvMsg ⟨.metrics mt⟩) ⟨.metrics mt⟩ mt
        rfl rfl rfl hh]
      refine ⟨rfl, ?_, ackFor (handleMetrics D srv.db mt).err, ?_, ?_⟩
      · simp [recvMsg, recvsOf, Event.recv?, List.filterMap_append, hr]
      · simp [recvMsg, acksOf, Event.ack?, List.filterMap_append, hc]
      · exact ackFor_success_iff D srv.db mt
          [.recv (.msg ⟨.metrics mt⟩), .register mt.Hostname]
          [.send (ackFor (handleMetrics D srv.db mt).err) none]
          (by simp [Event.isStoreCall]) (by simp [Event.isStoreCall])
    · rw [loopBody_metrics_bound D srv sess (recvMsg ⟨.metrics mt⟩) ⟨.metrics mt⟩ mt
        rfl rfl rfl hh]
      refine ⟨rfl, ?_, ackFor (handleMetrics D srv.db mt).err, ?_, ?_⟩
      · simp [recvMsg, recvsOf, Event.recv?, List.filterMap_append, hr]
      · simp [recvMsg, acksOf, Event.ack?, List.filterMap_append, hc]
      · exact ackFor_success_iff D srv.db mt
          [.recv (.msg ⟨.metrics mt⟩)]
          [.send (ackFor (handleMetrics D srv.db mt).err) none]
          (by simp [Event.isStoreCall]) (by simp [Event.isStoreCall])

/-- A running session that receives a finite sequence of messages, every
acknowledgment sent without error, is still running afterwards and has made one
pass per message, acknowledging each as owed. -/
theorem runLoop_recvMsgs {σ : Type} (D : DB σ) (msgs : List AgentMessage) :
    ∀ (srv : Server σ) (sess : Session), sess.status = .running →
      (runLoop D srv sess (msgs.map recvMsg)).sess.status = .running ∧
      List.Forall₂ AckCorresponds msgs (runLoop D srv sess (msgs.map recvMsg)).trace := by
  induction msgs with
  | nil =>
    intro srv sess h
    exact ⟨h, List.Forall₂.nil⟩
  | cons m rest ih =>
    intro srv sess h
    have hp := loopBody_recvMsg D srv sess m
    have hrec := ih (loopBody D srv sess (recvMsg m)).srv (loopBody D srv sess (recvMsg m)).sess
      (hp.1.trans h)
    rw [List.map_cons, runLoop_running D srv sess (recvMsg m) _ h]
    exact ⟨hrec.1, List.Forall₂.cons hp.2 hrec.2⟩

/-- C1. Acknowledgment correspondence: for every session of `StreamMetrics`
and every finite sequence of inbound messages (each acknowledgment sent without
error), the session makes one pass per message, in the order received; the
pass of a `Metrics` message sends exactly one acknowledgment, whose `Success`
is true exactly when both `UpsertHost` and `InsertUsage` were called for that
message and returned no error; a failed sample does not end the session, which
is still running after the last message. -/
theorem ack_correspondence {σ : Type} (D : DB σ) (srv : Server σ) (stream : StreamId)
    (msgs : List AgentMessage) :
    (StreamMetrics D srv stream (msgs.map recvMsg)).sess.status = .running ∧
    List.Forall₂
      (fun m evs =>
        recvsOf evs = [.msg m] ∧
        match m.Payload with
        | .metrics _ => ∃ ack, acksOf evs = [ack] ∧ (ack.Success = true ↔ StoredOk evs)
        | .other => acksOf evs = [])
      msgs (StreamMetrics D srv stream (msgs.map recvMsg)).trace :=
  runLoop_recvMsgs D msgs srv { stream := stream, hostname := "", status := .running } rfl

/-- A session on a store whose first `UpsertHost` fails: the failed sample is
acknowledged with `Success` false and the text of the error, and the next
sample is still handled and acknowledged with `Success` true. -/
theorem acks_on_scripted_store :
    acksOf (StreamMetrics scriptedDB
        (NewServer { upserts := [(0, some (.text "disk full")), (5, none)], inserts := [] }) 1
        [recvMsg ⟨.metrics (sample "h1" 1000)⟩, recvMsg ⟨.other⟩,
         recvMsg ⟨.metrics (sample "h1" 1060)⟩]).trace.flatten =
      [{ Success := false, Message := "upsert host: disk full" },
       { Success := true, Message := "received" }] := by
  decide

/-! ## Returning -/

/-- A `return` of a session whose `hostname` is set deletes `streams[hostname]`
and does nothing else. -/
theorem returnWith_bound {σ : Type} (srv : Server σ) (sess : Session) (pre : List Event)
    (err : Option GoError) (hh : sess.hostname ≠ "") :
    returnWith srv sess pre err =
      { srv := { db := srv.db, streams := srv.streams.delete sess.hostname }
        sess := { sess with status := .returned err }
        events := pre ++ [.unregister sess.hostname] } := by
  unfold returnWith
  simp [hh]

/-- A `return` of a session whose `hostname` is empty touches nothing. -/
theorem returnWith_unbound {σ : Type} (srv : Server σ) (sess : Session) (pre : List Event)
    (err : Option GoError) (hh : sess.hostname = "") :
    returnWith srv sess pre err =
      { srv := srv, sess := { sess with status := .returned err }, events := pre } := by
  unfold returnWith
  simp [hh]

/-- A running session that sees its context cancelled at the head of the loop
makes that pass its last whatever the environment holds next; it returns
`ctx.Err()`, performs no `Recv`, no store call (the store is as it was), no
`Send` and no registration; when its `hostname` is not empty it deletes that
key from `streams`, once, and the map has no entry for it afterwards; when its
`hostname` is empty it deletes nothing and leaves `streams` as it was. -/
theorem runLoop_cancelled_returns {σ : Type} (D : DB σ) (srv : Server σ) (sess : Session)
    (i : LoopInput) (rest : List LoopInput) (e : GoError)
    (hrun : sess.status = .running) (hctx : i.ctxErr = some e) :
    (runLoop D srv sess (i :: rest)).sess.status = .returned (some e) ∧
    (runLoop D srv sess (i :: rest)).trace.length = 1 ∧
    (runLoop D srv sess (i :: rest)).srv.db = srv.db ∧
    recvsOf (runLoop D srv sess (i :: rest)).trace.flatten = [] ∧
    storeCallsOf (runLoop D srv sess (i :: rest)).trace.flatten = [] ∧
    acksOf (runLoop D srv sess (i :: rest)).trace.flatten = [] ∧
    registrationsOf (runLoop D srv sess (i :: rest)).trace.flatten = [] ∧
    (sess.hostname ≠ "" →
      unregistrationsOf (runLoop D srv sess (i :: rest)).trace.flatten = [sess.hostname] ∧
      (runLoop D srv sess (i :: rest)).srv.streams.get sess.hostname = none) ∧
    (sess.hostname = "" →
      unregistrationsOf (runLoop D srv sess (i :: rest)).trace.flatten = [] ∧
      (runLoop D srv sess (i :: rest)).srv.streams = srv.streams) := by
  rw [runLoop_running D srv sess i rest hrun, loopBody_cancelled D srv sess i e hctx]
  rw [runLoop_returned D _ _ rest (some e) (returnWith_status srv sess [] (some e))]
  by_cases hh : sess.hostname = ""
  · rw [returnWith_unbound srv sess [] (some e) hh]
    simp [hh, recvsOf, storeCallsOf, acksOf, registrationsOf, unregistrationsOf]
  · rw [returnWith_bound srv sess [] (some e) hh]
    simp [hh, recvsOf, storeCallsOf, acksOf, registrationsOf, unregistrationsOf,
      Event.recv?, Event.isStoreCall, Event.ack?, Event.registered?, Event.unregistered?,
      StreamMap.get_delete_self]

/-! ## Binding -/

/-- A pass of a session whose `hostname` is set inserts nothing into `streams`
and keeps `hostname`. -/
theorem loopBody_bound_keeps {σ : Type} (D : DB σ) (srv : Server σ) (sess : Session)
    (i : LoopInput) (hh : sess.hostname ≠ "") :
    registrationsOf (loopBody D srv sess i).events = [] ∧
    (loopBody D srv sess i).sess.hostname = sess.hostname := by
  cases hc : i.ctxErr with
  | some e =>
    rw [loopBody_cancelled D srv sess i e hc, returnWith_bound srv sess _ _ hh]
    simp [registrationsOf, Event.registered?]
  | none =>
    cases hr : i.recv with
    | err e =>
      rw [loopBody_recv_err D srv sess i e hc hr, returnWith_bound srv sess _ _ hh]
      simp [registrationsOf, Event.registered?]
    | msg m =>
      obtain ⟨p⟩ := m
      cases p with
      | other =>
        rw [loopBody_other D srv sess i ⟨.other⟩ hc hr rfl]
        simp [registrationsOf, Event.registered?]
      | metrics mt =>
        have h1 := registrationsOf_calls D srv.db mt
        unfold registrationsOf at h1 ⊢
        rw [loopBody_metrics_bound D srv sess i ⟨.metrics mt⟩ mt hc hr rfl hh]
        cases hs : i.sendErr with
        | none => simp [List.filterMap_append, h1, Event.registered?]
        | some e =>
          simp only []
          rw [returnWith_bound _ sess _ _ hh]
          simp [List.filterMap_append, h1, Event.registered?]

/-- A pass of a session whose `hostname` is empty either receives no `Metrics`,
inserts nothing and keeps `hostname` empty, or receives one `Metrics` message,
inserts its stream under the hostname of that message and adopts it. -/
theorem loopBody_unbound_binds {σ : Type} (D : DB σ) (srv : Server σ) (sess : Session)
    (i : LoopInput) (hh : sess.hostname = "") :
    (metricsOf (loopBody D srv sess i).events = [] ∧
      registrationsOf (loopBody D srv sess i).events = [] ∧
      (loopBody D srv sess i).sess.hostname = "") ∨
    (∃ mt, metricsOf (loopBody D srv sess i).events = [mt] ∧
      registrationsOf (loopBody D srv sess i).events = [mt.Hostname] ∧
      (loopBody D srv sess i).sess.hostname = mt.Hostname) := by
  cases hc : i.ctxErr with
  | some e =>
    rw [loopBody_cancelled D srv sess i e hc, returnWith_unbound srv sess _ _ hh]
    exact Or.inl (by simp [registrationsOf, metricsOf, hh])
  | none =>
    cases hr : i.recv with
    | err e =>
      rw [loopBody_recv_err D srv sess i e hc hr, returnWith_unbound srv sess _ _ hh]
      exact Or.inl (by simp [registrationsOf, metricsOf, Event.registered?, Event.metrics?, hh])
    | msg m =>
      obtain ⟨p⟩ := m
      cases p with
      | other =>
        rw [loopBody_other D srv sess i ⟨.other⟩ hc hr rfl]
        exact Or.inl (by simp [registrationsOf, metricsOf, Event.registered?, Event.metrics?, hh])
      | metrics mt =>
        have h1 := registrationsOf_calls D srv.db mt
        have h2 := metricsOf_calls D srv.db mt
        unfold registrationsOf at h1 ⊢
        unfold metricsOf at h2 ⊢
        rw [loopBody_metrics_unbound D srv sess i ⟨.metrics mt⟩ mt hc hr rfl hh]
        refine Or.inr ⟨mt, ?_⟩
        cases hs : i.sendErr with
        | none => simp [List.filterMap_append, h1, h2, Event.registered?, Event.metrics?]
        | some e =>
          simp only []
          unfold returnWith
          split <;>
            simp [List.filterMap_append, h1, h2, Event.registered?, Event.metrics?]

/-- A session whose `hostname` is set never inserts into `streams` again and
keeps `hostname`, whatever it receives. -/
theorem runLoop_bound_keeps {σ : Type} (D : DB σ) (inputs : List LoopInput) :
    ∀ (srv : Server σ) (sess : Session), sess.hostname ≠ "" →
      registrationsOf (runLoop D srv sess inputs).trace.flatten = [] ∧
      (runLoop D srv sess inputs).sess.hostname = sess.hostname := by
  induction inputs with
  | nil => intro srv sess _; exact ⟨rfl, rfl⟩
  | cons i rest ih =>
    intro srv sess hh
    cases hst : sess.status with
    | returned err =>
      rw [runLoop_returned D srv sess _ err hst]
      exact ⟨rfl, rfl⟩
    | running =>
      have hp := loopBody_bound_keeps D srv sess i hh
      have hrec := ih (loopBody D srv sess i).srv (loopBody D srv sess i).sess
        (by rw [hp.2]; exact hh)
      rw [runLoop_running D srv sess i rest hst]
      unfold registrationsOf at hp hrec ⊢
      simp [List.filterMap_append, hp.1, hrec.1, hrec.2, hp.2]

/-- A session whose `hostname` is empty and whose first received `Metrics`
message carries a non-empty hostname inserts into `streams` once, under that
hostname, and ends with `hostname` equal to it. -/
theorem runLoop_unbound_binds {σ : Type} (D : DB σ) (inputs : List LoopInput) :
    ∀ (srv : Server σ) (sess : Session) (m : HostMetrics) (later : List HostMetrics),
      sess.hostname = "" →
      metricsOf (runLoop D srv sess inputs).trace.flatten = m :: later →
      m.Hostname ≠ "" →
      registrationsOf (runLoop D srv sess inputs).trace.flatten = [m.Hostname] ∧
      (runLoop D srv sess inputs).sess.hostname = m.Hostname := by
  induction inputs with
  | nil =>
    intro srv sess m later _ hm _
    simp [runLoop, metricsOf] at hm
  | cons i rest ih =>
    intro srv sess m later hh hm hne
    cases hst : sess.status with
    | returned err =>
      rw [runLoop_returned D srv sess _ err hst] at hm
      simp [metricsOf] at hm
    | running =>
      rw [runLoop_running D srv sess i rest hst] at hm ⊢
      rcases loopBody_unbound_binds D srv sess i hh with ⟨h1, h2, h3⟩ | ⟨mt, h1, h2, h3⟩
      · have hm2 : metricsOf (runLoop D (loopBody D srv sess i).srv
            (loopBody D srv sess i).sess rest).trace.flatten = m :: later := by
          unfold metricsOf at hm h1 ⊢
          simpa [List.filterMap_append, h1] using hm
        have hrec := ih _ _ m later h3 hm2 hne
        unfold registrationsOf at h2 hrec ⊢
        simp [List.filterMap_append, h2, hrec.1, hrec.2]
      · have hmt : mt = m := by
          unfold metricsOf at hm h1
          simp [List.filterMap_append, h1] at hm
          exact hm.1
        subst hmt
        have hrec := runLoop_bound_keeps D rest (loopBody D srv sess i).srv
          (loopBody D srv sess i).sess (by rw [h3]; exact hne)
        unfold registrationsOf at h2 hrec ⊢
        simp [List.filterMap_append, h2, hrec.1, hrec.2, h3]

/-- C3, as amended. Binding-once: for any session of `StreamMetrics` and any
run of its environment, if the first `Metrics` message the session receives
(structurally valid or not) carries a non-empty hostname, then the session
inserts into `streams` exactly once, under that hostname, and its `hostname`
is that hostname at the end, whatever hostnames later messages carry. -/
theorem binding_first_metrics {σ : Type} (D : DB σ) (srv : Server σ) (stream : StreamId)
    (inputs : List LoopInput) (m : HostMetrics) (later : List HostMetrics)
    (hfirst : metricsOf (StreamMetrics D srv stream inputs).trace.flatten = m :: later)
    (hne : m.Hostname ≠ "") :
    registrationsOf (StreamMetrics D srv stream inputs).trace.flatten = [m.Hostname] ∧
    (StreamMetrics D srv stream inputs).sess.hostname = m.Hostname :=
  runLoop_unbound_binds D inputs srv _ m later rfl hfirst hne

/-- C3 as amended, on a session whose first `Metrics` message, from `a`, lacks
`Info` and whose second, from `b`, is valid: the only insertion is under `a`. -/
theorem binding_first_metrics_witness :
    registrationsOf (StreamMetrics memDB (NewServer emptyStore) 1
        [recvMsg ⟨.metrics (sampleNoInfo "a" 1000)⟩,
         recvMsg ⟨.metrics (sample "b" 1060)⟩]).trace.flatten = ["a"] ∧
    (StreamMetrics memDB (NewServer emptyStore) 1
        [recvMsg ⟨.metrics (sampleNoInfo "a" 1000)⟩,
         recvMsg ⟨.metrics (sample "b" 1060)⟩]).sess.hostname = "a" :=
  binding_first_metrics memDB (NewServer emptyStore) 1
    [recvMsg ⟨.metrics (sampleNoInfo "a" 1000)⟩, recvMsg ⟨.metrics (sample "b" 1060)⟩]
    (sampleNoInfo "a" 1000) [sample "b" 1060] (by decide) (by decide)

/-- C3, as stated, fails: on a session that receives a `Metrics` message from
`a` without `Info` and then a valid one from `b`, the first valid message is
the one from `b`, yet the registry key of the session is `a`. -/
theorem binding_first_valid_counterexample :
    (((metricsOf (StreamMetrics memDB (NewServer emptyStore) 1
        [recvMsg ⟨.metrics (sampleNoInfo "a" 1000)⟩,
         recvMsg ⟨.metrics (sample "b" 1060)⟩]).trace.flatten).filter
          HostMetrics.valid).map HostMetrics.Hostname).head? = some "b" ∧
    registrationsOf (StreamMetrics memDB (NewServer emptyStore) 1
        [recvMsg ⟨.metrics (sampleNoInfo "a" 1000)⟩,
         recvMsg ⟨.metrics (sample "b" 1060)⟩]).trace.flatten = ["a"] ∧
    (StreamMetrics memDB (NewServer emptyStore) 1
        [recvMsg ⟨.metrics (sampleNoInfo "a" 1000)⟩,
         recvMsg ⟨.metrics (sample "b" 1060)⟩]).srv.streams = [("a", 1)] := by
  decide

/-! ## Cleanup of a session with a non-empty hostname -/

/-- A pass of a running session whose `hostname` is set either leaves it
running, deleting nothing, or returns, deleting `streams[hostname]` once. -/
theorem loopBody_bound_unregisters {σ : Type} (D : DB σ) (srv : Server σ) (sess : Session)
    (i : LoopInput) (hh : sess.hostname ≠ "") (hrun : sess.status = .running) :
    ((loopBody D srv sess i).sess.status = .running ∧
      unregistrationsOf (loopBody D srv sess i).events = [] ∧
      (loopBody D srv sess i).srv.streams = srv.streams) ∨
    ((∃ err, (loopBody D srv sess i).sess.status = .returned err) ∧
      unregistrationsOf (loopBody D srv sess i).events = [sess.hostname] ∧
      (loopBody D srv sess i).srv.streams = srv.streams.delete sess.hostname) := by
  cases hc : i.ctxErr with
  | some e =>
    rw [loopBody_cancelled D srv sess i e hc, returnWith_bound srv sess _ _ hh]
    exact Or.inr (by simp [unregistrationsOf, Event.unregistered?])
  | none =>
    cases hr : i.recv with
    | err e =>
      rw [loopBody_recv_err D srv sess i e hc hr, returnWith_bound srv sess _ _ hh]
      exact Or.inr (by simp [unregistrationsOf, Event.unregistered?])
    | msg m =>
      obtain ⟨p⟩ := m
      cases p with
      | other =>
        rw [loopBody_other D srv sess i ⟨.other⟩ hc hr rfl]
        exact Or.inl (by simp [unregistrationsOf, Event.unregistered?, hrun])
      | metrics mt =>
        have h1 := unregistrationsOf_calls D srv.db mt
        unfold unregistrationsOf at h1 ⊢
        rw [loopBody_metrics_bound D srv sess i ⟨.metrics mt⟩ mt hc hr rfl hh]
        cases hs : i.sendErr with
        | none =>
          exact Or.inl (by simp [List.filterMap_append, h1, Event.unregistered?, hrun])
        | some e =>
          simp only []
          rw [returnWith_bound _ sess _ _ hh]
          exact Or.inr (by simp [List.filterMap_append, h1, Event.unregistered?])

/-- A running session whose `hostname` is set deletes nothing while it runs,
and deletes `streams[hostname]` exactly once when it returns. -/
theorem runLoop_bound_unregisters {σ : Type} (D : DB σ) (inputs : List LoopInput) :
    ∀ (srv : Server σ) (sess : Session), sess.hostname ≠ "" → sess.status = .running →
      ((runLoop D srv sess inputs).sess.status = .running ∧
        unregistrationsOf (runLoop D srv sess inputs).trace.flatten = [] ∧
        (runLoop D srv sess inputs).srv.streams = srv.streams) ∨
      ((∃ err, (runLoop D srv sess inputs).sess.status = .returned err) ∧
        unregistrationsOf (runLoop D srv sess inputs).trace.flatten = [sess.hostname] ∧
        (runLoop D srv sess inputs).srv.streams = srv.streams.delete sess.hostname) := by
  induction inputs with
  | nil =>
    intro srv sess _ hrun
    exact Or.inl ⟨hrun, rfl, rfl⟩
  | cons i rest ih =>
    intro srv sess hh hrun
    rw [runLoop_running D srv sess i rest hrun]
    have hk := (loopBody_bound_keeps D srv sess i hh).2
    rcases loopBody_bound_unregisters D srv sess i hh hrun with ⟨h1, h2, h3⟩ | ⟨⟨err, h1⟩, h2, h3⟩
    · have hrec := ih (loopBody D srv sess i).srv (loopBody D srv sess i).sess
        (by rw [hk]; exact hh) h1
      rw [hk, h3] at hrec
      unfold unregistrationsOf at h2 hrec ⊢
      rcases hrec with ⟨r1, r2, r3⟩ | ⟨r1, r2, r3⟩
      · exact Or.inl ⟨r1, by simp [List.filterMap_append, h2, r2], r3⟩
      · exact Or.inr ⟨r1, by simp [List.filterMap_append, h2, r2], r3⟩
    · rw [runLoop_returned D _ _ rest err h1]
      unfold unregistrationsOf at h2 ⊢
      exact Or.inr ⟨⟨err, h1⟩, by simp [h2], h3⟩

/-- A pass of a running session whose `hostname` is empty: when it receives a
`Metrics` message with a non-empty hostname it either goes on running, deleting
nothing, or returns (the `Send` failed), deleting the entry it just inserted;
otherwise it deletes nothing and its `hostname` stays empty or becomes the
(empty) hostname of the message. -/
theorem loopBody_unbound_unregisters {σ : Type} (D : DB σ) (srv : Server σ) (sess : Session)
    (i : LoopInput) (hh : sess.hostname = "") (hrun : sess.status = .running) :
    (metricsOf (loopBody D srv sess i).events = [] ∧
      unregistrationsOf (loopBody D srv sess i).events = [] ∧
      (loopBody D srv sess i).sess.hostname = "") ∨
    (∃ mt, metricsOf (loopBody D srv sess i).events = [mt] ∧
      (loopBody D srv sess i).sess.hostname = mt.Hostname ∧
      (mt.Hostname ≠ "" →
        ((loopBody D srv sess i).sess.status = .running ∧
          unregistrationsOf (loopBody D srv sess i).events = []) ∨
        ((∃ err, (loopBody D srv sess i).sess.status = .returned err) ∧
          unregistrationsOf (loopBody D srv sess i).events = [mt.Hostname] ∧
          (loopBody D srv sess i).srv.streams.get mt.Hostname = none))) := by
  cases hc : i.ctxErr with
  | some e =>
    rw [loopBody_cancelled D srv sess i e hc, returnWith_unbound srv sess _ _ hh]
    exact Or.inl (by simp [unregistrationsOf, metricsOf, hh])
  | none =>
    cases hr : i.recv with
    | err e =>
      rw [loopBody_recv_err D srv sess i e hc hr, returnWith_unbound srv sess _ _ hh]
      exact Or.inl (by simp [unregistrationsOf, metricsOf, Event.unregistered?,
        Event.metrics?, hh])
    | msg m =>
      obtain ⟨p⟩ := m
      cases p with
      | other =>
        rw [loopBody_other D srv sess i ⟨.other⟩ hc hr rfl]
        exact Or.inl (by simp [unregistrationsOf, metricsOf, Event.unregistered?,
          Event.metrics?, hh])
      | metrics mt =>
        have h1 := unregistrationsOf_calls D srv.db mt
        have h2 := metricsOf_calls D srv.db mt
        unfold unregistrationsOf at h1 ⊢
        unfold metricsOf at h2 ⊢
        rw [loopBody_metrics_unbound D srv sess i ⟨.metrics mt⟩ mt hc hr rfl hh]
        refine Or.inr ⟨mt, ?_⟩
        cases hs : i.sendErr with
        | none =>
          refine ⟨by simp [List.filterMap_append, h2, Event.metrics?], rfl, fun _ => Or.inl ?_⟩
          simp [List.filterMap_append, h1, Event.unregistered?, hrun]
        | some e =>
          simp only []
          by_cases hm : mt.Hostname = ""
          · rw [returnWith_unbound _ _ _ _ (by simpa using hm)]
            exact ⟨by simp [List.filterMap_append, h2, Event.metrics?], rfl,
              fun hne => absurd hm hne⟩
          · rw [returnWith_bound _ _ _ _ (by simpa using hm)]
            refine ⟨by simp [List.filterMap_append, h2, Event.metrics?], rfl,
              fun _ => Or.inr ⟨⟨some e, rfl⟩, ?_, ?_⟩⟩
            · simp [List.filterMap_append, h1, Event.unregistered?]
            · exact StreamMap.get_delete_self _ _

/-- Registry lifecycle for non-empty hostnames: a session of `StreamMetrics`
whose first received `Metrics` message carries a non-empty hostname `h`, and
which has returned, inserted into `streams` exactly once (under `h`) and
deleted from it exactly once (`h`), and the map has no entry for `h` when it
returns. -/
theorem runLoop_lifecycle_nonempty {σ : Type} (D : DB σ) (inputs : List LoopInput) :
    ∀ (srv : Server σ) (sess : Session) (m : HostMetrics) (later : List HostMetrics)
      (err : Option GoError),
      sess.hostname = "" → sess.status = .running →
      metricsOf (runLoop D srv sess inputs).trace.flatten = m :: later →
      m.Hostname ≠ "" →
      (runLoop D srv sess inputs).sess.status = .returned err →
      unregistrationsOf (runLoop D srv sess inputs).trace.flatten = [m.Hostname] ∧
      (runLoop D srv sess inputs).srv.streams.get m.Hostname = none := by
  induction inputs with
  | nil =>
    intro srv sess m later err _ _ hm _ _
    simp [runLoop, metricsOf] at hm
  | cons i rest ih =>
    intro srv sess m later err hh hrun hm hne hret
    rw [runLoop_running D srv sess i rest hrun] at hm hret ⊢
    rcases loopBody_unbound_unregisters D srv sess i hh hrun with
      ⟨h1, h2, h3⟩ | ⟨mt, h1, h3, h4⟩
    · have hm2 : metricsOf (runLoop D (loopBody D srv sess i).srv
          (loopBody D srv sess i).sess rest).trace.flatten = m :: later := by
        unfold metricsOf at hm h1 ⊢
        simpa [List.filterMap_append, h1] using hm
      cases hst : (loopBody D srv sess i).sess.status with
      | returned err2 =>
        rw [runLoop_returned D _ _ rest err2 hst] at hm2
        simp [metricsOf] at hm2
      | running =>
        have hrec := ih _ _ m later err h3 hst hm2 hne hret
        unfold unregistrationsOf at h2 hrec ⊢
        exact ⟨by simp [List.filterMap_append, h2, hrec.1], hrec.2⟩
    · have hmt : mt = m := by
        unfold metricsOf at hm h1
        simp [List.filterMap_append, h1] at hm
        exact hm.1
      subst hmt
      rcases h4 hne with ⟨s1, s2⟩ | ⟨⟨err2, s1⟩, s2, s3⟩
      · rcases runLoop_bound_unregisters D rest (loopBody D srv sess i).srv
            (loopBody D srv sess i).sess (by rw [h3]; exact hne) s1 with
          ⟨r1, _, _⟩ | ⟨_, r2, r3⟩
        · simp only [] at hret
          rw [r1] at hret
          cases hret
        · rw [h3] at r2 r3
          unfold unregistrationsOf at s2 r2 ⊢
          refine ⟨by simp [List.filterMap_append, s2, r2], ?_⟩
          simp only []
          rw [r3]
          exact StreamMap.get_delete_self _ _
      · rw [runLoop_returned D _ _ rest err2 s1]
        unfold unregistrationsOf at s2 ⊢
        exact ⟨by simp [s2], s3⟩

/-- A running session whose `Recv` fails returns at that pass: nil when the
error is `io.EOF`, the error itself otherwise. -/
theorem runLoop_recv_err_returns {σ : Type} (D : DB σ) (srv : Server σ) (sess : Session)
    (i : LoopInput) (rest : List LoopInput) (e : GoError) (hrun : sess.status = .running)
    (hctx : i.ctxErr = none) (hrecv : i.recv = .err e) :
    (runLoop D srv sess (i :: rest)).sess.status =
      .returned (if e = .eof then none else some e) := by
  rw [runLoop_running D srv sess i rest hrun, loopBody_recv_err D srv sess i e hctx hrecv]
  rw [runLoop_returned D _ _ rest _ (returnWith_status srv sess _ _)]
  exact returnWith_status srv sess _ _

/-! ## Two sessions on one server -/

/-- Duplicate registration under a non-empty hostname: let sessions A and B, on
streams `a` and `b` of one server, each receive as first message a `Metrics`
carrying the same non-empty hostname `h`, A first. After A's pass `streams[h]`
is `a`; after B's pass it is `b`, A's entry being overwritten without any
error (both stay running); when A then returns, by whatever pass (context
cancelled, `Recv` ending or failing, or a failed `Send`), its deferred cleanup
deletes `streams[h]`, so the map has no entry for `h` although B is still
running and bound to `h`. -/
theorem duplicate_registration_nonempty {σ : Type} (D : DB σ) (srv : Server σ)
    (a b : StreamId) (mA mB : HostMetrics) (h : String) (iT : LoopInput)
    (hne : h ≠ "") (hA : mA.Hostname = h) (hB : mB.Hostname = h)
    (hT : ∃ err, (runLoop D
      (StreamMetrics D (StreamMetrics D srv a [recvMsg ⟨.metrics mA⟩]).srv b
        [recvMsg ⟨.metrics mB⟩]).srv
      (StreamMetrics D srv a [recvMsg ⟨.metrics mA⟩]).sess [iT]).sess.status =
        .returned err) :
    (StreamMetrics D srv a [recvMsg ⟨.metrics mA⟩]).srv.streams.get h = some a ∧
    (StreamMetrics D srv a [recvMsg ⟨.metrics mA⟩]).sess.status = .running ∧
    (StreamMetrics D (StreamMetrics D srv a [recvMsg ⟨.metrics mA⟩]).srv b
      [recvMsg ⟨.metrics mB⟩]).srv.streams.get h = some b ∧
    (StreamMetrics D (StreamMetrics D srv a [recvMsg ⟨.metrics mA⟩]).srv b
      [recvMsg ⟨.metrics mB⟩]).sess.status = .running ∧
    (StreamMetrics D (StreamMetrics D srv a [recvMsg ⟨.metrics mA⟩]).srv b
      [recvMsg ⟨.metrics mB⟩]).sess.hostname = h ∧
    (runLoop D
      (StreamMetrics D (StreamMetrics D srv a [recvMsg ⟨.metrics mA⟩]).srv b
        [recvMsg ⟨.metrics mB⟩]).srv
      (StreamMetrics D srv a [recvMsg ⟨.metrics mA⟩]).sess [iT]).srv.streams.get h = none := by
  have first : ∀ (s : Server σ) (c : StreamId) (m : HostMetrics), m.Hostname = h →
      StreamMetrics D s c [recvMsg ⟨.metrics m⟩] =
        { srv := { db := (handleMetrics D s.db m).db, streams := s.streams.set h c }
          sess := { stream := c, hostname := h, status := .running }
          trace := [.recv (.msg ⟨.metrics m⟩) :: .register h ::
            ((handleMetrics D s.db m).calls ++
              [.send (ackFor (handleMetrics D s.db m).err) none])] } := by
    intro s c m hm
    unfold StreamMetrics
    rw [runLoop_running D s _ _ _ rfl,
      loopBody_metrics_unbound D s _ (recvMsg ⟨.metrics m⟩) ⟨.metrics m⟩ m rfl rfl rfl rfl]
    simp [recvMsg, runLoop, hm]
  rw [first srv a mA hA, first _ b mB hB] at hT ⊢
  refine ⟨StreamMap.get_set_self _ _ _, rfl, StreamMap.get_set_self _ _ _, rfl, rfl, ?_⟩
  obtain ⟨err, hT⟩ := hT
  rcases runLoop_bound_unregisters D [iT] _
      { stream := a, hostname := h, status := .running } hne rfl with
    ⟨r1, _, _⟩ | ⟨_, _, r3⟩
  · rw [r1] at hT
    cases hT
  · rw [r3]
    exact StreamMap.get_delete_self _ _

/-! ## Data of a bound session -/

/-- C6, as amended. No re-binding: when a session whose `hostname` is already
set to a non-empty `h` receives a valid `Metrics` message, whatever hostname
the message carries, the session stays bound to `h` and inserts nothing into
`streams`; the data however is stored under the hostname of the message: the
first store call is `UpsertHost` with a `Host` whose `Hostname` is the
message's; when that call returns no error exactly one `InsertUsage` follows,
on the store state it left and with the identifier it returned as `HostID`
(and the timestamp of the message); when it returns an error no `InsertUsage`
is made. -/
theorem bound_session_stores_message_hostname {σ : Type} (D : DB σ) (srv : Server σ)
    (sess : Session) (i : LoopInput) (mt : HostMetrics) (info : HostInfo)
    (usage : PbHostUsage) (hb : sess.hostname ≠ "") (hctx : i.ctxErr = none)
    (hrecv : i.recv = .msg ⟨.metrics mt⟩) (hi : mt.Info = some info)
    (hu : mt.Usage = some usage) :
    (loopBody D srv sess i).sess.hostname = sess.hostname ∧
    registrationsOf (loopBody D srv sess i).events = [] ∧
    ∃ host u,
      host.Hostname = mt.Hostname ∧
      u.HostID = (D.UpsertHost srv.db host).2.1 ∧
      u.Timestamp = { sec := mt.Timestamp, nsec := 0 } ∧
      storeCallsOf (loopBody D srv sess i).events =
        if (D.UpsertHost srv.db host).2.2 = none then
          [.upsertHost host (D.UpsertHost srv.db host).2.1 none,
           .insertUsage u (D.InsertUsage (D.UpsertHost srv.db host).1 u).2]
        else
          [.upsertHost host (D.UpsertHost srv.db host).2.1 (D.UpsertHost srv.db host).2.2] := by
  have hk := loopBody_bound_keeps D srv sess i hb
  refine ⟨hk.2, hk.1, hostOf mt info,
    usageOf mt usage (D.UpsertHost srv.db (hostOf mt info)).2.1, rfl, rfl, ?_, ?_⟩
  · simp [usageOf, time_Unix_zero]
  rw [loopBody_metrics_bound D srv sess i ⟨.metrics mt⟩ mt hctx hrecv rfl hb]
  cases he : (D.UpsertHost srv.db (hostOf mt info)).2.2 with
  | some e =>
    rw [handleMetrics_upsert_failed D srv.db mt info usage e hi hu he]
    cases hs : i.sendErr with
    | none => simp [storeCallsOf, Event.isStoreCall, List.filter_cons]
    | some e2 =>
      simp only []
      rw [returnWith_bound _ sess _ _ hb]
      simp [storeCallsOf, Event.isStoreCall, List.filter_cons]
  | none =>
    rw [handleMetrics_upsert_ok D srv.db mt info usage hi hu he]
    cases hs : i.sendErr with
    | none => simp [storeCallsOf, Event.isStoreCall, List.filter_cons]
    | some e2 =>
      simp only []
      rw [returnWith_bound _ sess _ _ hb]
      simp [storeCallsOf, Event.isStoreCall, List.filter_cons]

/-- C6 as amended, on a session bound to `a` that receives a valid sample
carrying hostname `b`, on a store that knows `a` under identifier 1: the
session stays bound to `a`. -/
theorem bound_session_stores_message_hostname_witness :
    (loopBody memDB { db := emptyStore, streams := [("a", 1)] }
      { stream := 1, hostname := "a", status := .running }
      (recvMsg ⟨.metrics (sample "b" 1060)⟩)).sess.hostname = "a" :=
  (bound_session_stores_message_hostname memDB { db := emptyStore, streams := [("a", 1)] }
    { stream := 1, hostname := "a", status := .running }
    (recvMsg ⟨.metrics (sample "b" 1060)⟩) (sample "b" 1060)
    { UptimeSeconds := 3600, CpuCores := 4, TotalMemoryBytes := 8192,
      TotalStorageBytes := 65536 }
    { CpuPercent := 0x4045400000000000, UsedMemoryBytes := 2048, UsedStorageBytes := 4096 }
    (by decide) rfl rfl rfl rfl).1

/-- C6, as stated, fails: a session bound to `a` by its first sample (host
identifier 1) then receives a valid sample carrying hostname `b`; the session
is still bound to `a`, yet the upsert of the second sample is keyed by `b` and
its usage row is attached to the identifier of `b`, 2. -/
theorem rebinding_data_counterexample :
    (StreamMetrics memDB (NewServer emptyStore) 1
        [recvMsg ⟨.metrics (sample "a" 1000)⟩]).sess.hostname = "a" ∧
    (StreamMetrics memDB (NewServer emptyStore) 1
        [recvMsg ⟨.metrics (sample "a" 1000)⟩,
         recvMsg ⟨.metrics (sample "b" 1060)⟩]).sess.hostname = "a" ∧
    storeCallsOf (StreamMetrics memDB (NewServer emptyStore) 1
        [recvMsg ⟨.metrics (sample "a" 1000)⟩,
         recvMsg ⟨.metrics (sample "b" 1060)⟩]).trace.flatten =
      [.upsertHost
          { Hostname := "a", IP := "10.0.0.1", UptimeSeconds := 3600, CPUCores := 4,
            TotalMemoryBytes := 8192, TotalStorageBytes := 65536,
            LastSeen := { sec := 1000, nsec := 0 }, Online := true } 1 none,
       .insertUsage
          { HostID := 1, Timestamp := { sec := 1000, nsec := 0 },
            CPUPercent := 0x4045400000000000, UsedMemoryBytes := 2048,
            UsedStorageBytes := 4096 } none,
       .upsertHost
          { Hostname := "b", IP := "10.0.0.1", UptimeSeconds := 3600, CPUCores := 4,
            TotalMemoryBytes := 8192, TotalStorageBytes := 65536,
            LastSeen := { sec := 1060, nsec := 0 }, Online := true } 2 none,
       .insertUsage
          { HostID := 2, Timestamp := { sec := 1060, nsec := 0 },
            CPUPercent := 0x4045400000000000, UsedMemoryBytes := 2048,
            UsedStorageBytes := 4096 } none] := by
  decide

/-! ## The empty hostname -/

/-- C4 on a failing input. A session receives a valid sample with the empty
hostname, then a valid sample from `h1`, then `io.EOF`. It returns nil, having
inserted into `streams` twice (under the empty hostname, then under `h1`) and
deleted once (`h1`): the entry it inserted under the empty hostname is still in
the map after it returned. -/
theorem empty_hostname_entry_leaked :
    (StreamMetrics memDB (NewServer emptyStore) 7
        [recvMsg ⟨.metrics (sample "" 1000)⟩, recvMsg ⟨.metrics (sample "h1" 1060)⟩,
         recvEOF]).sess.status = .returned none ∧
    registrationsOf (StreamMetrics memDB (NewServer emptyStore) 7
        [recvMsg ⟨.metrics (sample "" 1000)⟩, recvMsg ⟨.metrics (sample "h1" 1060)⟩,
         recvEOF]).trace.flatten = ["", "h1"] ∧
    unregistrationsOf (StreamMetrics memDB (NewServer emptyStore) 7
        [recvMsg ⟨.metrics (sample "" 1000)⟩, recvMsg ⟨.metrics (sample "h1" 1060)⟩,
         recvEOF]).trace.flatten = ["h1"] ∧
    (StreamMetrics memDB (NewServer emptyStore) 7
        [recvMsg ⟨.metrics (sample "" 1000)⟩, recvMsg ⟨.metrics (sample "h1" 1060)⟩,
         recvEOF]).srv.streams = [("", 7)] := by
  decide

/-- C7 on a failing input. A session receives one valid sample, whose hostname
is empty, and then `io.EOF`. It returns nil and both store calls were made, but
no deletion from `streams` takes place: the map still holds the entry of the
session under the hostname of its sample. -/
theorem clean_close_keeps_empty_hostname_entry :
    (StreamMetrics memDB (NewServer emptyStore) 7
        [recvMsg ⟨.metrics (sample "" 1000)⟩, recvEOF]).sess.status = .returned none ∧
    acksOf (StreamMetrics memDB (NewServer emptyStore) 7
        [recvMsg ⟨.metrics (sample "" 1000)⟩, recvEOF]).trace.flatten =
      [{ Success := true, Message := "received" }] ∧
    unregistrationsOf (StreamMetrics memDB (NewServer emptyStore) 7
        [recvMsg ⟨.metrics (sample "" 1000)⟩, recvEOF]).trace.flatten = [] ∧
    (StreamMetrics memDB (NewServer emptyStore) 7
        [recvMsg ⟨.metrics (sample "" 1000)⟩, recvEOF]).srv.streams.get
          (sample "" 1000).Hostname = some 7 := by
  decide

/-- C9 on a failing input. A session receives a valid sample whose hostname is
empty, which inserts its stream into `streams` under the empty key, and then
finds its context cancelled at the head of the loop. It returns `ctx.Err()`
without a further `Recv`, store call or `Send` (the sample waiting in the
cancelled pass is not received), but it deletes nothing: the entry it
registered is still in the map after it returned. -/
theorem cancelled_session_keeps_empty_hostname_entry :
    (StreamMetrics memDB (NewServer emptyStore) 4
        [recvMsg ⟨.metrics (sample "" 1000)⟩, cancelledInput]).sess.status =
      .returned (some (.text "context canceled")) ∧
    (StreamMetrics memDB (NewServer emptyStore) 4
        [recvMsg ⟨.metrics (sample "" 1000)⟩, cancelledInput]).trace =
      (StreamMetrics memDB (NewServer emptyStore) 4
        [recvMsg ⟨.metrics (sample "" 1000)⟩]).trace ++ [[]] ∧
    registrationsOf (StreamMetrics memDB (NewServer emptyStore) 4
        [recvMsg ⟨.metrics (sample "" 1000)⟩, cancelledInput]).trace.flatten = [""] ∧
    unregistrationsOf (StreamMetrics memDB (NewServer emptyStore) 4
        [recvMsg ⟨.metrics (sample "" 1000)⟩, cancelledInput]).trace.flatten = [] ∧
    (StreamMetrics memDB (NewServer emptyStore) 4
        [recvMsg ⟨.metrics (sample "" 1000)⟩, cancelledInput]).srv.streams = [("", 4)] := by
  decide

/-- C10 on a failing input. Sessions A (stream 1) and B (stream 2) of one
server each receive as first message a valid sample whose hostname is empty,
A first. B's registration replaces A's entry under the empty key; when A then
ends by `io.EOF` while B is still running, A returns nil but its cleanup
deletes nothing: the map still holds the entry of that hostname, with B's
handle. -/
theorem duplicate_empty_hostname_entry_kept :
    (StreamMetrics memDB (NewServer emptyStore) 1
        [recvMsg ⟨.metrics (sample "" 1000)⟩]).srv.streams = [("", 1)] ∧
    (StreamMetrics memDB
        (StreamMetrics memDB (NewServer emptyStore) 1
          [recvMsg ⟨.metrics (sample "" 1000)⟩]).srv 2
        [recvMsg ⟨.metrics (sample "" 1060)⟩]).srv.streams = [("", 2)] ∧
    (StreamMetrics memDB
        (StreamMetrics memDB (NewServer emptyStore) 1
          [recvMsg ⟨.metrics (sample "" 1000)⟩]).srv 2
        [recvMsg ⟨.metrics (sample "" 1060)⟩]).sess.status = .running ∧
    (runLoop memDB
        (StreamMetrics memDB
          (StreamMetrics memDB (NewServer emptyStore) 1
            [recvMsg ⟨.metrics (sample "" 1000)⟩]).srv 2
          [recvMsg ⟨.metrics (sample "" 1060)⟩]).srv
        (StreamMetrics memDB (NewServer emptyStore) 1
          [recvMsg ⟨.metrics (sample "" 1000)⟩]).sess [recvEOF]).sess.status =
      .returned none ∧
    unregistrationsOf (runLoop memDB
        (StreamMetrics memDB
          (StreamMetrics memDB (NewServer emptyStore) 1
            [recvMsg ⟨.metrics (sample "" 1000)⟩]).srv 2
          [recvMsg ⟨.metrics (sample "" 1060)⟩]).srv
        (StreamMetrics memDB (NewServer emptyStore) 1
          [recvMsg ⟨.metrics (sample "" 1000)⟩]).sess [recvEOF]).trace.flatten = [] ∧
    (runLoop memDB
        (StreamMetrics memDB
          (StreamMetrics memDB (NewServer emptyStore) 1
            [recvMsg ⟨.metrics (sample "" 1000)⟩]).srv 2
          [recvMsg ⟨.metrics (sample "" 1060)⟩]).srv
        (StreamMetrics memDB (NewServer emptyStore) 1
          [recvMsg ⟨.metrics (sample "" 1000)⟩]).sess [recvEOF]).srv.streams.get
          (sample "" 1000).Hostname = some 2 := by
  decide

end Commander
